import Mathlib

/-!
Verification of the routing-state record core (`routing/state.go` of
go-libp2p-core): construction, parsing/authentication, serialization and
equality of signed routing state records.

The external collaborators (the signed-envelope subsystem in `crypto`,
peer identifiers in `peer`, the protobuf payload codec in `routing/pb`,
and multiaddr parsing in `go-multiaddr`) are not part of the core source;
they are modelled abstractly as a `Deps` record of functions, and the
laws the core relies on are stated as the explicit `DepsContract`.
A concrete executable instance `M` of `Deps`, modelled from the spec,
is provided so that every theorem can be exercised on closed inputs.
-/

namespace LibP2P

/-- Byte strings: a byte is a natural number. Nothing in the core depends on
an upper bound for a single byte, so no modular arithmetic is needed here. -/
abbrev Bytes := List Nat

/-- Public key of the envelope subsystem (opaque to the core). -/
structure PubKey where
  pk : Bytes
deriving DecidableEq

/-- Private key: a capability that can sign and expose its public key. -/
structure PrivKey where
  sk : Bytes
  pub : PubKey
deriving DecidableEq

/-- Modelled from the spec: peer.ID is an opaque, self-verifying identifier;
in Go it is a string of bytes compared by byte equality. -/
structure PeerID where
  bytes : Bytes
deriving DecidableEq

/-- Modelled from the spec: an address is an opaque, self-delimiting byte
string; the core interprets no internal structure. -/
structure Multiaddr where
  bytes : Bytes
deriving DecidableEq

/-- Modelled from the spec: ma.Multiaddr.Equal compares the byte encodings
of the two addresses. -/
def Multiaddr.Equal (a b : Multiaddr) : Bool :=
  decide (a.bytes = b.bytes)

/-- Go error values; the core only ever creates errors via errors.New with a
fixed message, so an error is identified by its message. -/
structure Err where
  msg : String
deriving DecidableEq

/-- Modelled from the spec: the signed container produced by the envelope
subsystem, with its embedded public key, payload-type tag, payload and
signature bytes accessible. -/
structure SignedEnvelope where
  publicKey : PubKey
  payloadType : Bytes
  payload : Bytes
  signature : Bytes
deriving DecidableEq

/-- Modelled from the spec: envelope equality holds iff signature bytes,
public key, payload and payload type are all equal. -/
def SignedEnvelope.Equal (a b : SignedEnvelope) : Bool :=
  decide (a.signature = b.signature) && decide (a.publicKey = b.publicKey) &&
    decide (a.payload = b.payload) && decide (a.payloadType = b.payloadType)

/-- One address entry of the pb.RoutingStateRecord protobuf message. -/
structure AddressInfo where
  multiaddr : Bytes
deriving DecidableEq

/-- The pb.RoutingStateRecord protobuf message: identity bytes, an unsigned
64-bit sequence number, and a list of address entries. -/
structure RoutingStateRecordMsg where
  peerId : Bytes
  seq : Nat
  addresses : List AddressInfo
deriving DecidableEq

/-- Modelled from the spec: the external interfaces the core consumes —
peer-id derivation and decoding (package peer), the payload codec
(package routing/pb via gogo proto), multiaddr parsing (go-multiaddr),
and the signed-envelope subsystem (package crypto). Each fallible Go
function returning (value, error) is modelled as an Except. -/
structure Deps where
  idFromPrivateKey : PrivKey → Except Err PeerID
  idMarshalBinary : PeerID → Except Err Bytes
  idFromBytes : Bytes → Except Err PeerID
  matchesPublicKey : PeerID → PubKey → Bool
  protoMarshal : RoutingStateRecordMsg → Except Err Bytes
  protoUnmarshal : Bytes → Except Err RoutingStateRecordMsg
  newMultiaddrBytes : Bytes → Except Err Multiaddr
  makeEnvelope : PrivKey → String → Bytes → Bytes → Except Err SignedEnvelope
  openEnvelope : Bytes → String → Except Err SignedEnvelope
  envMarshal : SignedEnvelope → Except Err Bytes

/-- The domain string used for routing state records contained in a
SignedEnvelope. -/
def StateEnvelopeDomain : String := "libp2p-routing-state"

/-- Bytes of a Go string constant. -/
def strBytes (s : String) : Bytes := s.toList.map Char.toNat

/-- The type hint used to identify routing state records in a
SignedEnvelope. -/
def StateEnvelopePayloadType : Bytes := strBytes "/libp2p/routing-state-record"

/-- The error errors.New("unexpected envelope payload type"). -/
def SchemaMismatchError : Err := ⟨"unexpected envelope payload type"⟩

/-- The error errors.New("peer id in routing state record does not match
signing key"). -/
def IdentityBindingError : Err :=
  ⟨"peer id in routing state record does not match signing key"⟩

/-- statelessSeqNo: uint64(time.Now().UnixNano()). The clock reading is an
int64 count of nanoseconds; the cast to uint64 reinterprets it modulo 2^64. -/
def statelessSeqNo (nowUnixNano : Int) : Nat :=
  (nowUnixNano % (2 : Int) ^ 64).toNat

/-- addrsFromProtobuf: converts each entry with ma.NewMultiaddrBytes,
silently skipping entries that fail to parse. -/
def addrsFromProtobuf (d : Deps) : List AddressInfo → List Multiaddr
  | [] => []
  | addr :: rest =>
    match d.newMultiaddrBytes addr.multiaddr with
    | .error _ => addrsFromProtobuf d rest
    | .ok a => a :: addrsFromProtobuf d rest

/-- addrsToProtobuf: wraps each address's byte encoding in an AddressInfo. -/
def addrsToProtobuf (addrs : List Multiaddr) : List AddressInfo :=
  addrs.map fun addr => ⟨addr.bytes⟩

/-- SignedRoutingState: the identity the record pertains to, the sequence
counter, the decoded addresses, and the retained envelope. -/
structure SignedRoutingState where
  peerID : PeerID
  seq : Nat
  addresses : List Multiaddr
  envelope : SignedEnvelope
deriving DecidableEq

/-- A throwaway record used only as the default of Option.getD in closed
witness computations. -/
def emptyRecord : SignedRoutingState :=
  ⟨⟨[]⟩, 0, [], ⟨⟨[]⟩, [], [], []⟩⟩

/-- SignedRoutingStateFromEnvelope: checks the payload type against
StateEnvelopePayloadType, decodes the payload, decodes the peer id, checks
that the id matches the envelope's public key, and builds the record. The
Go function returns the pair (record pointer, error); both components are
modelled explicitly so that nil results are visible. -/
def SignedRoutingStateFromEnvelope (d : Deps) (envelope : SignedEnvelope) :
    Option SignedRoutingState × Option Err :=
  if envelope.payloadType ≠ StateEnvelopePayloadType then
    (none, some SchemaMismatchError)
  else
    match d.protoUnmarshal envelope.payload with
    | .error e => (none, some e)
    | .ok msg =>
      match d.idFromBytes msg.peerId with
      | .error e => (none, some e)
      | .ok pid =>
        if !(d.matchesPublicKey pid envelope.publicKey) then
          (none, some IdentityBindingError)
        else
          (some { peerID := pid, seq := msg.seq,
                  addresses := addrsFromProtobuf d msg.addresses,
                  envelope := envelope }, none)

/-- The part of SignedRoutingStateFromEnvelope after its payload-type check:
payload decode, identity decode, identity binding, record construction. -/
def parseRecordPayload (d : Deps) (envelope : SignedEnvelope) :
    Option SignedRoutingState × Option Err :=
  match d.protoUnmarshal envelope.payload with
  | .error e => (none, some e)
  | .ok msg =>
    match d.idFromBytes msg.peerId with
    | .error e => (none, some e)
    | .ok pid =>
      if !(d.matchesPublicKey pid envelope.publicKey) then
        (none, some IdentityBindingError)
      else
        (some { peerID := pid, seq := msg.seq,
                addresses := addrsFromProtobuf d msg.addresses,
                envelope := envelope }, none)

/-- UnmarshalSignedRoutingState: opens the envelope under the fixed domain
string and hands the result to SignedRoutingStateFromEnvelope. -/
def UnmarshalSignedRoutingState (d : Deps) (envelopeBytes : Bytes) :
    Option SignedRoutingState × Option Err :=
  match d.openEnvelope envelopeBytes StateEnvelopeDomain with
  | .error e => (none, some e)
  | .ok envelope => SignedRoutingStateFromEnvelope d envelope

/-- MakeSignedRoutingState: derives the peer id from the private key,
generates a timestamp-based sequence number, serializes the payload, signs
it into an envelope and returns the record. The clock reading
time.Now().UnixNano() is passed explicitly as nowUnixNano. -/
def MakeSignedRoutingState (d : Deps) (nowUnixNano : Int) (privKey : PrivKey)
    (addrs : List Multiaddr) : Option SignedRoutingState × Option Err :=
  match d.idFromPrivateKey privKey with
  | .error e => (none, some e)
  | .ok p =>
    match d.idMarshalBinary p with
    | .error e => (none, some e)
    | .ok idBytes =>
      let seq := statelessSeqNo nowUnixNano
      let msg : RoutingStateRecordMsg :=
        { peerId := idBytes, seq := seq, addresses := addrsToProtobuf addrs }
      match d.protoMarshal msg with
      | .error e => (none, some e)
      | .ok payload =>
        match d.makeEnvelope privKey StateEnvelopeDomain
            StateEnvelopePayloadType payload with
        | .error e => (none, some e)
        | .ok envelope =>
          (some { peerID := p, seq := seq, addresses := addrs,
                  envelope := envelope }, none)

/-- Marshal: serializes the retained envelope. -/
def SignedRoutingState.Marshal (d : Deps) (s : SignedRoutingState) :
    Except Err Bytes :=
  d.envMarshal s.envelope

/-- PeerID accessor. -/
def SignedRoutingState.PeerID (s : SignedRoutingState) : PeerID := s.peerID

/-- Seq accessor. -/
def SignedRoutingState.Seq (s : SignedRoutingState) : Nat := s.seq

/-- Multiaddrs accessor. -/
def SignedRoutingState.Multiaddrs (s : SignedRoutingState) : List Multiaddr :=
  s.addresses

/-- Equal: the Go method takes a possibly-nil pointer, modelled as an
Option; a nil other compares unequal. Fields are compared in source order:
seq, peerID, address list length, pairwise addresses, envelope. -/
def SignedRoutingState.Equal (s : SignedRoutingState)
    (other : Option SignedRoutingState) : Bool :=
  match other with
  | none => false
  | some other =>
    if s.seq ≠ other.seq then false
    else if s.peerID ≠ other.peerID then false
    else if s.addresses.length ≠ other.addresses.length then false
    else if !((s.addresses.zip other.addresses).all fun p => p.1.Equal p.2) then
      false
    else s.envelope.Equal other.envelope

/-- Length-prefixed encoding of one byte string. -/
def encList (l : Bytes) : Bytes := l.length :: l

/-- Decoder matching encList: reads a length then that many bytes, returning
the decoded string and the remainder. -/
def decList : Bytes → Option (Bytes × Bytes)
  | [] => none
  | n :: rest =>
    if n ≤ rest.length then some (rest.take n, rest.drop n) else none

/-- Concatenated length-prefixed encoding of the address entries. -/
def encAddrs : List AddressInfo → Bytes
  | [] => []
  | a :: rest => encList a.multiaddr ++ encAddrs rest

/-- Decoder matching encAddrs, given the number of entries. -/
def decAddrs : Nat → Bytes → Option (List AddressInfo × Bytes)
  | 0, rest => some ([], rest)
  | n + 1, rest =>
    match decList rest with
    | none => none
    | some (a, rest₁) =>
      match decAddrs n rest₁ with
      | none => none
      | some (as, rest₂) => some (⟨a⟩ :: as, rest₂)

/-- Modelled from the spec: a canonical structured encoding of
(identityBytes, sequence, repeated addressBytes) standing in for the
routing/pb protobuf serialization, which is not part of the core source. -/
def encodeMsg (m : RoutingStateRecordMsg) : Bytes :=
  encList m.peerId ++ (m.seq :: m.addresses.length :: encAddrs m.addresses)

/-- Modelled from the spec: structural decoder for encodeMsg; any byte
string that is not an exact encoding fails with a MalformedPayloadError. -/
def decodeMsg (b : Bytes) : Except Err RoutingStateRecordMsg :=
  match decList b with
  | none => .error ⟨"malformed routing state payload"⟩
  | some (pid, rest) =>
    match rest with
    | seqv :: cnt :: rest₁ =>
      match decAddrs cnt rest₁ with
      | none => .error ⟨"malformed routing state payload"⟩
      | some (as, rest₂) =>
        if rest₂ = [] then .ok ⟨pid, seqv, as⟩
        else .error ⟨"malformed routing state payload"⟩
    | _ => .error ⟨"malformed routing state payload"⟩

/-- Modelled from the spec: a signature stands in for the envelope
subsystem's cryptographic signature; it deterministically binds the domain
string, the payload type, the signing key and the payload, and verification
recomputes it from the embedded public key. -/
def mkSig (pub : PubKey) (dom : String) (pt payload : Bytes) : Bytes :=
  encList (strBytes dom) ++ (encList pt ++ (encList pub.pk ++ payload))

/-- Modelled from the spec: the envelope subsystem's wire encoding of a
signed container. -/
def encodeEnv (env : SignedEnvelope) : Bytes :=
  encList env.publicKey.pk ++
    (encList env.payloadType ++ (encList env.signature ++ env.payload))

/-- Structural decoder for encodeEnv. -/
def decodeEnv (b : Bytes) : Option SignedEnvelope :=
  (decList b).bind fun p₁ =>
    (decList p₁.2).bind fun p₂ =>
      (decList p₂.2).bind fun p₃ =>
        some { publicKey := ⟨p₁.1⟩, payloadType := p₂.1,
               payload := p₃.2, signature := p₃.1 }

/-- Modelled from the spec: open(bytes, expectedDomain) of the envelope
subsystem — decode the container and verify the signature under the
expected domain, failing with an AuthenticationError otherwise. -/
def modelOpenEnvelope (b : Bytes) (dom : String) : Except Err SignedEnvelope :=
  match decodeEnv b with
  | none => .error ⟨"failed to decode envelope"⟩
  | some env =>
    if env.signature = mkSig env.publicKey dom env.payloadType env.payload then
      .ok env
    else .error ⟨"invalid signature or unexpected domain"⟩

/-- Modelled from the spec: the identity derived deterministically from a
public key (content-addressed: computable from the key). -/
def idOfPub (pub : PubKey) : PeerID := ⟨0 :: pub.pk⟩

/-- Modelled from the spec: a concrete executable instance of the external
interfaces — peer-id derivation/decoding, the payload codec, multiaddr
parsing (an empty byte string is the malformed case), and the envelope
subsystem with signing, opening and marshalling. -/
def M : Deps where
  idFromPrivateKey := fun k => .ok (idOfPub k.pub)
  idMarshalBinary := fun p => .ok p.bytes
  idFromBytes := fun bs =>
    match bs with
    | 0 :: _ => .ok ⟨bs⟩
    | _ => .error ⟨"failed to parse peer id"⟩
  matchesPublicKey := fun pid pub => decide (pid = idOfPub pub)
  protoMarshal := fun m => .ok (encodeMsg m)
  protoUnmarshal := decodeMsg
  newMultiaddrBytes := fun bs =>
    match bs with
    | [] => .error ⟨"empty multiaddr"⟩
    | _ => .ok ⟨bs⟩
  makeEnvelope := fun k dom pt payload =>
    .ok ⟨k.pub, pt, payload, mkSig k.pub dom pt payload⟩
  openEnvelope := modelOpenEnvelope
  envMarshal := fun env => .ok (encodeEnv env)

/-- Whether the multiaddr library accepts the address's byte encoding and
returns the address itself: the well-formedness the round trip relies on. -/
def WellFormedAddr (d : Deps) (a : Multiaddr) : Prop :=
  d.newMultiaddrBytes a.bytes = .ok a

/-- The laws of the external collaborators that the core relies on: the
envelope subsystem's sign/open/marshal contract, the peer-id round trip and
key binding, and the payload codec round trip. -/
structure DepsContract (d : Deps) : Prop where
  makeEnvelope_publicKey : ∀ k dom pt payload env,
    d.makeEnvelope k dom pt payload = .ok env → env.publicKey = k.pub
  makeEnvelope_payloadType : ∀ k dom pt payload env,
    d.makeEnvelope k dom pt payload = .ok env → env.payloadType = pt
  makeEnvelope_payload : ∀ k dom pt payload env,
    d.makeEnvelope k dom pt payload = .ok env → env.payload = payload
  open_marshal : ∀ k dom pt payload env b,
    d.makeEnvelope k dom pt payload = .ok env → d.envMarshal env = .ok b →
      d.openEnvelope b dom = .ok env
  marshal_total : ∀ env, ∃ b, d.envMarshal env = .ok b
  id_roundtrip : ∀ k p bs, d.idFromPrivateKey k = .ok p →
    d.idMarshalBinary p = .ok bs → d.idFromBytes bs = .ok p
  id_matches : ∀ k p, d.idFromPrivateKey k = .ok p →
    d.matchesPublicKey p k.pub = true
  proto_roundtrip : ∀ m b, d.protoMarshal m = .ok b →
    d.protoUnmarshal b = .ok m

/-- The value carried by an Except when it is ok. -/
def exceptToOption {α : Type} : Except Err α → Option α
  | .ok a => some a
  | .error _ => none

lemma decList_encList (l r : Bytes) : decList (encList l ++ r) = some (l, r) := by
  simp only [encList, List.cons_append, decList]
  rw [if_pos (by simp), List.take_left, List.drop_left]

lemma decList_inv (b x r : Bytes) (h : decList b = some (x, r)) :
    b = encList x ++ r := by
  cases b with
  | nil => simp [decList] at h
  | cons n rest =>
    simp only [decList] at h
    by_cases hn : n ≤ rest.length
    · rw [if_pos hn] at h
      obtain ⟨hx, hr⟩ := Prod.mk.injEq .. ▸ Option.some.injEq .. ▸ h
      subst hx hr
      simp only [encList, List.cons_append, List.take_append_drop,
        List.length_take_of_le hn]
  -- when the length prefix overruns, decList fails
    · rw [if_neg hn] at h
      exact absurd h (by simp)

lemma decAddrs_encAddrs (as : List AddressInfo) (r : Bytes) :
    decAddrs as.length (encAddrs as ++ r) = some (as, r) := by
  induction as generalizing r with
  | nil => simp [encAddrs, decAddrs]
  | cons a as ih =>
    simp only [encAddrs, List.length_cons, decAddrs, List.append_assoc,
      decList_encList, ih]

lemma decodeMsg_encodeMsg (m : RoutingStateRecordMsg) :
    decodeMsg (encodeMsg m) = .ok m := by
  have hd := decAddrs_encAddrs m.addresses []
  rw [List.append_nil] at hd
  simp [decodeMsg, encodeMsg, decList_encList, hd]

lemma decodeEnv_encodeEnv (env : SignedEnvelope) :
    decodeEnv (encodeEnv env) = some env := by
  simp [decodeEnv, encodeEnv, decList_encList]

lemma encodeEnv_decodeEnv (b : Bytes) (env : SignedEnvelope)
    (h : decodeEnv b = some env) : encodeEnv env = b := by
  simp only [decodeEnv, Option.bind_eq_some] at h
  obtain ⟨⟨pk, r₁⟩, h₁, ⟨pt, r₂⟩, h₂, ⟨sig, payload⟩, h₃, h₄⟩ := h
  simp only [Option.some.injEq] at h₄
  subst h₄
  rw [decList_inv b pk r₁ h₁, decList_inv r₁ pt r₂ h₂,
    decList_inv r₂ sig payload h₃]
  simp [encodeEnv]

lemma M_contract : DepsContract M := by
  constructor
  · intro k dom pt payload env h
    simp only [M, Except.ok.injEq] at h
    rw [← h]
  · intro k dom pt payload env h
    simp only [M, Except.ok.injEq] at h
    rw [← h]
  · intro k dom pt payload env h
    simp only [M, Except.ok.injEq] at h
    rw [← h]
  · intro k dom pt payload env b h₁ h₂
    simp only [M, Except.ok.injEq] at h₁ h₂
    subst h₁ h₂
    simp [M, modelOpenEnvelope, decodeEnv_encodeEnv]
  · intro env
    exact ⟨encodeEnv env, rfl⟩
  · intro k p bs h₁ h₂
    simp only [M, Except.ok.injEq] at h₁ h₂
    subst h₁ h₂
    simp [M, idOfPub]
  · intro k p h
    simp only [M, Except.ok.injEq] at h
    subst h
    simp [M]
  · intro m b h
    simp only [M, Except.ok.injEq] at h
    subst h
    exact decodeMsg_encodeMsg m

lemma M_open_marshal_exact (b : Bytes) (dom : String) (env : SignedEnvelope)
    (h : M.openEnvelope b dom = .ok env) : M.envMarshal env = .ok b := by
  simp only [M] at h ⊢
  unfold modelOpenEnvelope at h
  split at h
  · exact absurd h (by simp)
  · rename_i env' h₁
    split at h
    · simp only [Except.ok.injEq] at h
      subst h
      exact congrArg Except.ok (encodeEnv_decodeEnv b _ h₁)
    · exact absurd h (by simp)

lemma addrsFromProtobuf_eq_filterMap (d : Deps) (entries : List AddressInfo) :
    addrsFromProtobuf d entries =
      entries.filterMap fun a => exceptToOption (d.newMultiaddrBytes a.multiaddr) := by
  induction entries with
  | nil => rfl
  | cons a rest ih =>
    cases h : d.newMultiaddrBytes a.multiaddr with
    | error e =>
      simp [addrsFromProtobuf, List.filterMap_cons, h, exceptToOption, ih]
    | ok m =>
      simp [addrsFromProtobuf, List.filterMap_cons, h, exceptToOption, ih]

lemma addrs_roundtrip (d : Deps) (addrs : List Multiaddr)
    (hwf : ∀ a ∈ addrs, WellFormedAddr d a) :
    addrsFromProtobuf d (addrsToProtobuf addrs) = addrs := by
  induction addrs with
  | nil => rfl
  | cons a rest ih =>
    have ha : d.newMultiaddrBytes a.bytes = .ok a := hwf a (by simp)
    have hrest := ih fun x hx => hwf x (by simp [hx])
    simp [addrsToProtobuf, addrsFromProtobuf, ha] at hrest ⊢
    simpa [addrsToProtobuf] using hrest

lemma zip_self_all_equal (l : List Multiaddr) :
    ((l.zip l).all fun p => p.1.Equal p.2) = true := by
  induction l with
  | nil => rfl
  | cons a rest ih =>
    show ((a, a) :: rest.zip rest).all (fun p => p.1.Equal p.2) = true
    simp only [List.all_cons, Bool.and_eq_true]
    exact ⟨by simp [Multiaddr.Equal], ih⟩

lemma env_equal_iff (a b : SignedEnvelope) : a.Equal b = true ↔ a = b := by
  cases a
  cases b
  simp only [SignedEnvelope.Equal, Bool.and_eq_true, decide_eq_true_eq,
    SignedEnvelope.mk.injEq]
  tauto

lemma equal_refl (s : SignedRoutingState) : s.Equal (some s) = true := by
  simp [SignedRoutingState.Equal, zip_self_all_equal,
    (env_equal_iff s.envelope s.envelope).mpr rfl]

lemma equal_char (s t : SignedRoutingState) :
    s.Equal (some t) = true ↔
      s.seq = t.seq ∧ s.peerID = t.peerID ∧
        List.Forall₂ (fun a b : Multiaddr => a.bytes = b.bytes)
          s.addresses t.addresses ∧
        s.envelope = t.envelope := by
  have hdef : s.Equal (some t) =
      (if s.seq ≠ t.seq then false
       else if s.peerID ≠ t.peerID then false
       else if s.addresses.length ≠ t.addresses.length then false
       else if !((s.addresses.zip t.addresses).all fun p => p.1.Equal p.2) then
         false
       else s.envelope.Equal t.envelope) := rfl
  rw [hdef]
  constructor
  · intro h
    split_ifs at h with h₁ h₂ h₃ h₄
    · have e₁ : s.seq = t.seq := not_not.mp h₁
      have e₂ : s.peerID = t.peerID := not_not.mp h₂
      have e₃ : s.addresses.length = t.addresses.length := not_not.mp h₃
      have e₄ : ((s.addresses.zip t.addresses).all fun p => p.1.Equal p.2)
          = true := by
        revert h₄
        cases (s.addresses.zip t.addresses).all fun p => p.1.Equal p.2 <;> simp
      refine ⟨e₁, e₂, ?_, (env_equal_iff _ _).mp h⟩
      rw [List.forall₂_iff_zip]
      refine ⟨e₃, ?_⟩
      intro a b hab
      have := List.all_eq_true.mp e₄ (a, b) hab
      simpa [Multiaddr.Equal] using this
  · rintro ⟨e₁, e₂, e₃, e₄⟩
    have hl := e₃.length_eq
    have hz : ((s.addresses.zip t.addresses).all fun p => p.1.Equal p.2)
        = true := by
      rw [List.all_eq_true]
      intro p hp
      have hmem : (p.1, p.2) ∈ s.addresses.zip t.addresses := by simpa using hp
      have := (List.forall₂_iff_zip.mp e₃).2 hmem
      simpa [Multiaddr.Equal] using this
    rw [if_neg (by simp [e₁]), if_neg (by simp [e₂]), if_neg (by simp [hl]),
      if_neg (by simp [hz])]
    exact (env_equal_iff _ _).mpr e₄

lemma forall₂_bytes_eq {l₁ l₂ : List Multiaddr}
    (h : List.Forall₂ (fun a b : Multiaddr => a.bytes = b.bytes) l₁ l₂) :
    l₁ = l₂ := by
  induction h with
  | nil => rfl
  | @cons a b l₁' l₂' hab htail ih =>
    have hab' : a = b := by cases a; cases b; simpa using hab
    rw [hab', ih]

lemma make_success (d : Deps) (now : Int) (k : PrivKey)
    (addrs : List Multiaddr) (r : SignedRoutingState)
    (h : MakeSignedRoutingState d now k addrs = (some r, none)) :
    ∃ p idBytes payload env,
      d.idFromPrivateKey k = .ok p ∧ d.idMarshalBinary p = .ok idBytes ∧
      d.protoMarshal ⟨idBytes, statelessSeqNo now, addrsToProtobuf addrs⟩
        = .ok payload ∧
      d.makeEnvelope k StateEnvelopeDomain StateEnvelopePayloadType payload
        = .ok env ∧
      r = ⟨p, statelessSeqNo now, addrs, env⟩ := by
  cases hp : d.idFromPrivateKey k with
  | error e => simp [MakeSignedRoutingState, hp] at h
  | ok p =>
    cases hid : d.idMarshalBinary p with
    | error e => simp [MakeSignedRoutingState, hp, hid] at h
    | ok idBytes =>
      cases hpay : d.protoMarshal
          ⟨idBytes, statelessSeqNo now, addrsToProtobuf addrs⟩ with
      | error e => simp [MakeSignedRoutingState, hp, hid, hpay] at h
      | ok payload =>
        cases henv : d.makeEnvelope k StateEnvelopeDomain
            StateEnvelopePayloadType payload with
        | error e => simp [MakeSignedRoutingState, hp, hid, hpay, henv] at h
        | ok env =>
          simp only [MakeSignedRoutingState, hp, hid, hpay, henv,
            Prod.mk.injEq, Option.some.injEq, and_true] at h
          exact ⟨p, idBytes, payload, env, rfl, hid, hpay, henv, h.symm⟩

lemma fromEnvelope_success (d : Deps) (env : SignedEnvelope)
    (r : SignedRoutingState)
    (h : SignedRoutingStateFromEnvelope d env = (some r, none)) :
    r.envelope = env := by
  unfold SignedRoutingStateFromEnvelope at h
  split at h
  · simp at h
  · split at h
    · simp at h
    · split at h
      · simp at h
      · split at h
        · simp at h
        · simp only [Prod.mk.injEq, Option.some.injEq] at h
          rw [← h.1]

lemma fromEnvelope_shape (d : Deps) (env : SignedEnvelope) :
    (∃ e, SignedRoutingStateFromEnvelope d env = (none, some e)) ∨
      ∃ r, SignedRoutingStateFromEnvelope d env = (some r, none) := by
  unfold SignedRoutingStateFromEnvelope
  split
  · exact .inl ⟨SchemaMismatchError, rfl⟩
  · split
    · rename_i e _
      exact .inl ⟨e, rfl⟩
    · split
      · rename_i e _
        exact .inl ⟨e, rfl⟩
      · split
        · exact .inl ⟨IdentityBindingError, rfl⟩
        · exact .inr ⟨_, rfl⟩

/-- C1: for every envelope whose decoded payload yields a structurally valid
identity that does not match the envelope's embedded public key,
SignedRoutingStateFromEnvelope (and hence UnmarshalSignedRoutingState)
returns the IdentityBindingError and no record; when the identity does
match, the check passes and the parse succeeds. -/
theorem identity_binding_check (d : Deps) (env : SignedEnvelope)
    (msg : RoutingStateRecordMsg) (pid : PeerID)
    (hpt : env.payloadType = StateEnvelopePayloadType)
    (hpb : d.protoUnmarshal env.payload = .ok msg)
    (hid : d.idFromBytes msg.peerId = .ok pid) :
    (d.matchesPublicKey pid env.publicKey = false →
       SignedRoutingStateFromEnvelope d env
         = (none, some IdentityBindingError) ∧
       ∀ b, d.openEnvelope b StateEnvelopeDomain = .ok env →
         UnmarshalSignedRoutingState d b
           = (none, some IdentityBindingError)) ∧
    (d.matchesPublicKey pid env.publicKey = true →
       ∃ r, SignedRoutingStateFromEnvelope d env = (some r, none)) := by
  constructor
  · intro hm
    have hfe : SignedRoutingStateFromEnvelope d env
        = (none, some IdentityBindingError) := by
      simp [SignedRoutingStateFromEnvelope, hpt, hpb, hid, hm]
    refine ⟨hfe, fun b hb => ?_⟩
    unfold UnmarshalSignedRoutingState
    simp only [hb]
    exact hfe
  · intro hm
    refine ⟨{ peerID := pid, seq := msg.seq,
              addresses := addrsFromProtobuf d msg.addresses,
              envelope := env }, ?_⟩
    simp [SignedRoutingStateFromEnvelope, hpt, hpb, hid, hm]

/-- C2: for every envelope whose declared payload type differs from the
constant StateEnvelopePayloadType, SignedRoutingStateFromEnvelope returns
the SchemaMismatchError and no record; when the payload type equals the
constant, the check passes and parsing proceeds with the rest of the body
(parseRecordPayload). -/
theorem payload_type_check (d : Deps) (env : SignedEnvelope) :
    (env.payloadType ≠ StateEnvelopePayloadType →
       SignedRoutingStateFromEnvelope d env
         = (none, some SchemaMismatchError)) ∧
    (env.payloadType = StateEnvelopePayloadType →
       SignedRoutingStateFromEnvelope d env = parseRecordPayload d env) := by
  constructor
  · intro h
    simp [SignedRoutingStateFromEnvelope, h]
  · intro h
    simp only [SignedRoutingStateFromEnvelope, parseRecordPayload, h]
    rw [if_neg (by simp)]

/-- C3: for every private key and list of well-formed addresses, a record
built by MakeSignedRoutingState marshals to bytes that
UnmarshalSignedRoutingState parses back into a record Equal to the
original, assuming the dependency contract (envelope sign/open/marshal,
peer-id round trip, payload codec round trip). -/
theorem build_marshal_parse_roundtrip (d : Deps) (hc : DepsContract d)
    (now : Int) (k : PrivKey) (addrs : List Multiaddr)
    (hwf : ∀ a ∈ addrs, WellFormedAddr d a) (r : SignedRoutingState)
    (hmk : MakeSignedRoutingState d now k addrs = (some r, none)) :
    ∃ b, SignedRoutingState.Marshal d r = .ok b ∧
      ∃ r', UnmarshalSignedRoutingState d b = (some r', none) ∧
        r'.Equal (some r) = true := by
  obtain ⟨p, idBytes, payload, env, hp, hid, hpay, henv, hr⟩ :=
    make_success d now k addrs r hmk
  obtain ⟨b, hb⟩ := hc.marshal_total env
  have hmate : SignedRoutingState.Marshal d r = .ok b := by
    unfold SignedRoutingState.Marshal
    rw [hr]
    exact hb
  refine ⟨b, hmate, ?_⟩
  have hopen : d.openEnvelope b StateEnvelopeDomain = .ok env :=
    hc.open_marshal k StateEnvelopeDomain StateEnvelopePayloadType payload
      env b henv hb
  have hpt : env.payloadType = StateEnvelopePayloadType :=
    hc.makeEnvelope_payloadType k _ _ _ _ henv
  have hplc : env.payload = payload := hc.makeEnvelope_payload k _ _ _ _ henv
  have hpk : env.publicKey = k.pub := hc.makeEnvelope_publicKey k _ _ _ _ henv
  have hpb : d.protoUnmarshal env.payload
      = .ok ⟨idBytes, statelessSeqNo now, addrsToProtobuf addrs⟩ := by
    rw [hplc]
    exact hc.proto_roundtrip _ _ hpay
  have hidb : d.idFromBytes idBytes = .ok p := hc.id_roundtrip k p idBytes hp hid
  have hmatch : d.matchesPublicKey p env.publicKey = true := by
    rw [hpk]
    exact hc.id_matches k p hp
  have hfe : SignedRoutingStateFromEnvelope d env
      = (some { peerID := p, seq := statelessSeqNo now,
                addresses := addrsFromProtobuf d (addrsToProtobuf addrs),
                envelope := env }, none) := by
    simp [SignedRoutingStateFromEnvelope, hpt, hpb, hidb, hmatch]
  refine ⟨{ peerID := p, seq := statelessSeqNo now,
            addresses := addrsFromProtobuf d (addrsToProtobuf addrs),
            envelope := env }, ?_, ?_⟩
  · unfold UnmarshalSignedRoutingState
    simp only [hopen]
    exact hfe
  · rw [hr, addrs_roundtrip d addrs hwf]
    exact equal_refl _

/-- C4: when the payload-type, payload-decode, identity-decode and
identity-binding steps succeed, parsing succeeds and the record's address
list is exactly the well-formed entries of the payload's address list in
their original relative order (filterMap over the multiaddr parser):
malformed entries are silently dropped and nothing is reordered or
deduplicated. -/
theorem malformed_addrs_dropped (d : Deps) (env : SignedEnvelope)
    (msg : RoutingStateRecordMsg) (pid : PeerID)
    (hpt : env.payloadType = StateEnvelopePayloadType)
    (hpb : d.protoUnmarshal env.payload = .ok msg)
    (hid : d.idFromBytes msg.peerId = .ok pid)
    (hm : d.matchesPublicKey pid env.publicKey = true) :
    SignedRoutingStateFromEnvelope d env
      = (some { peerID := pid, seq := msg.seq,
                addresses := msg.addresses.filterMap fun a =>
                  exceptToOption (d.newMultiaddrBytes a.multiaddr),
                envelope := env }, none) := by
  simp [SignedRoutingStateFromEnvelope, hpt, hpb, hid, hm,
    addrsFromProtobuf_eq_filterMap]

/-- C5: Marshal always serializes the retained envelope, so for every
record obtained by parsing wire bytes b, Marshal reproduces b byte for
byte, assuming the envelope subsystem's open/marshal pair is a byte-exact
round trip. -/
theorem marshal_retained_envelope (d : Deps)
    (hrt : ∀ b env, d.openEnvelope b StateEnvelopeDomain = .ok env →
       d.envMarshal env = .ok b) :
    (∀ s : SignedRoutingState,
       SignedRoutingState.Marshal d s = d.envMarshal s.envelope) ∧
    (∀ b r, UnmarshalSignedRoutingState d b = (some r, none) →
       SignedRoutingState.Marshal d r = .ok b) := by
  refine ⟨fun s => rfl, ?_⟩
  intro b r h
  unfold UnmarshalSignedRoutingState at h
  cases ho : d.openEnvelope b StateEnvelopeDomain with
  | error e => simp [ho] at h
  | ok env =>
    simp only [ho] at h
    have henv := fromEnvelope_success d env r h
    unfold SignedRoutingState.Marshal
    rw [henv]
    exact hrt b env ho

/-- C6: Equal a b holds iff the sequence numbers are equal, the identities
are equal, the address lists are pairwise byte-equal in the same positions
(hence of equal length), and the envelopes are equal; in particular two
records differing only in address order are not Equal. -/
theorem equal_iff_spec :
    (∀ s t : SignedRoutingState,
       s.Equal (some t) = true ↔
         s.seq = t.seq ∧ s.peerID = t.peerID ∧
           List.Forall₂ (fun a b : Multiaddr => a.bytes = b.bytes)
             s.addresses t.addresses ∧
           s.envelope = t.envelope) ∧
    (∀ s t : SignedRoutingState, s.seq = t.seq → s.peerID = t.peerID →
       s.envelope = t.envelope → s.addresses.Perm t.addresses →
       s.addresses ≠ t.addresses → s.Equal (some t) = false) := by
  refine ⟨equal_char, ?_⟩
  intro s t h₁ h₂ h₃ hperm hne
  by_contra hfalse
  have htrue : s.Equal (some t) = true := by
    revert hfalse
    cases s.Equal (some t) <;> simp
  exact hne (forall₂_bytes_eq ((equal_char s t).mp htrue).2.2.1)

/-- C7: MakeSignedRoutingState takes the sequence number from the clock
reading, as the nanosecond count cast to an unsigned 64-bit integer, so two
builds at strictly increasing post-epoch (int64) clock readings produce
strictly increasing sequence values. -/
theorem seqno_timestamp_monotone (d : Deps) (k : PrivKey)
    (addrs : List Multiaddr) (t₁ t₂ : Int) (r₁ r₂ : SignedRoutingState)
    (h0 : 0 ≤ t₁) (h12 : t₁ < t₂) (h2 : t₂ < 2 ^ 63)
    (hmk₁ : MakeSignedRoutingState d t₁ k addrs = (some r₁, none))
    (hmk₂ : MakeSignedRoutingState d t₂ k addrs = (some r₂, none)) :
    SignedRoutingState.Seq r₁ = (t₁ % (2 : Int) ^ 64).toNat ∧
    SignedRoutingState.Seq r₂ = (t₂ % (2 : Int) ^ 64).toNat ∧
    SignedRoutingState.Seq r₁ < SignedRoutingState.Seq r₂ := by
  obtain ⟨p₁, i₁, pl₁, e₁, -, -, -, -, hr₁⟩ :=
    make_success d t₁ k addrs r₁ hmk₁
  obtain ⟨p₂, i₂, pl₂, e₂, -, -, -, -, hr₂⟩ :=
    make_success d t₂ k addrs r₂ hmk₂
  have hs₁ : SignedRoutingState.Seq r₁ = statelessSeqNo t₁ := by
    rw [hr₁]
    rfl
  have hs₂ : SignedRoutingState.Seq r₂ = statelessSeqNo t₂ := by
    rw [hr₂]
    rfl
  refine ⟨hs₁, hs₂, ?_⟩
  rw [hs₁, hs₂]
  unfold statelessSeqNo
  have hpow : (2 : Int) ^ 63 < (2 : Int) ^ 64 := by norm_num
  have hm₁ : t₁ % (2 : Int) ^ 64 = t₁ :=
    Int.emod_eq_of_lt h0 (lt_trans (lt_trans h12 h2) hpow)
  have hm₂ : t₂ % (2 : Int) ^ 64 = t₂ :=
    Int.emod_eq_of_lt (le_trans h0 (le_of_lt h12)) (lt_trans h2 hpow)
  rw [hm₁, hm₂]
  omega

/-- C8: whenever SignedRoutingStateFromEnvelope or
UnmarshalSignedRoutingState reports an error, the record component of the
result is nil — no partially populated record is ever returned alongside an
error. -/
theorem parse_error_no_record (d : Deps) :
    (∀ env e, (SignedRoutingStateFromEnvelope d env).2 = some e →
       (SignedRoutingStateFromEnvelope d env).1 = none) ∧
    (∀ b e, (UnmarshalSignedRoutingState d b).2 = some e →
       (UnmarshalSignedRoutingState d b).1 = none) := by
  have hfe : ∀ env e, (SignedRoutingStateFromEnvelope d env).2 = some e →
      (SignedRoutingStateFromEnvelope d env).1 = none := by
    intro env e h
    rcases fromEnvelope_shape d env with ⟨e', he⟩ | ⟨r, hr⟩
    · rw [he]
    · rw [hr] at h
      simp at h
  refine ⟨hfe, ?_⟩
  intro b e h
  unfold UnmarshalSignedRoutingState at h ⊢
  cases ho : d.openEnvelope b StateEnvelopeDomain with
  | error e' => simp [ho]
  | ok env =>
    simp only [ho] at h ⊢
    exact hfe env e h

/-- C9: comparing any record against the nil record is total and returns
false rather than panicking. -/
theorem equal_nil_false (s : SignedRoutingState) : s.Equal none = false := rfl

/-- C10: a record built by MakeSignedRoutingState stores the caller's
address list itself, unfiltered and unre-encoded, so Multiaddrs returns
exactly the input addresses — even entries the parse path would drop. -/
theorem make_keeps_addrs (d : Deps) (now : Int) (k : PrivKey)
    (addrs : List Multiaddr) (r : SignedRoutingState)
    (hmk : MakeSignedRoutingState d now k addrs = (some r, none)) :
    SignedRoutingState.Multiaddrs r = addrs := by
  obtain ⟨p, idBytes, payload, env, -, -, -, -, hr⟩ :=
    make_success d now k addrs r hmk
  rw [hr]
  rfl

/-- A concrete private key for closed instances. -/
def kA : PrivKey := ⟨[9], ⟨[1]⟩⟩

/-- A concrete well-formed address. -/
def maA : Multiaddr := ⟨[1]⟩

/-- A concrete address whose byte encoding the model's parser rejects. -/
def maEmpty : Multiaddr := ⟨[]⟩

/-- A payload whose embedded identity bytes are structurally valid but
denote a different identity than the signing key's. -/
def msgC1 : RoutingStateRecordMsg := ⟨[0, 2], 1, []⟩

/-- An envelope carrying msgC1 under the public key whose derived identity
is ⟨[0, 1]⟩, not ⟨[0, 2]⟩. -/
def envC1 : SignedEnvelope :=
  ⟨⟨[1]⟩, StateEnvelopePayloadType, encodeMsg msgC1, []⟩

theorem identity_binding_check_witness :
    SignedRoutingStateFromEnvelope M envC1
      = (none, some IdentityBindingError) :=
  ((identity_binding_check M envC1 msgC1 ⟨[0, 2]⟩ rfl rfl rfl).1 rfl).1

/-- An envelope with an empty payload-type tag. -/
def envC2 : SignedEnvelope := ⟨⟨[1]⟩, [], [], []⟩

theorem payload_type_check_witness :
    SignedRoutingStateFromEnvelope M envC2
      = (none, some SchemaMismatchError) :=
  (payload_type_check M envC2).1 (by decide)

/-- The record built by the model at clock reading 5. -/
def rC3 : SignedRoutingState :=
  ((MakeSignedRoutingState M 5 kA [maA]).1).getD emptyRecord

theorem build_marshal_parse_roundtrip_witness :
    MakeSignedRoutingState M 5 kA [maA] = (some rC3, none) ∧
    ∃ b, SignedRoutingState.Marshal M rC3 = .ok b ∧
      ∃ r', UnmarshalSignedRoutingState M b = (some r', none) ∧
        r'.Equal (some rC3) = true :=
  ⟨rfl, build_marshal_parse_roundtrip M M_contract 5 kA [maA]
    (fun a ha => by
      rw [List.mem_singleton.mp ha]
      rfl) rC3 rfl⟩

/-- A payload mixing one well-formed and one malformed address entry. -/
def msgC4 : RoutingStateRecordMsg := ⟨[0, 1], 3, [⟨[1]⟩, ⟨[]⟩]⟩

/-- An envelope carrying msgC4 under the matching public key. -/
def envC4 : SignedEnvelope :=
  ⟨⟨[1]⟩, StateEnvelopePayloadType, encodeMsg msgC4, []⟩

theorem malformed_addrs_dropped_witness :
    SignedRoutingStateFromEnvelope M envC4
      = (some { peerID := ⟨[0, 1]⟩, seq := 3, addresses := [⟨[1]⟩],
                envelope := envC4 }, none) :=
  malformed_addrs_dropped M envC4 msgC4 ⟨[0, 1]⟩ rfl rfl rfl rfl

/-- A well-typed payload for the marshal-after-parse witness. -/
def msgC5 : RoutingStateRecordMsg := ⟨[0, 1], 7, [⟨[2]⟩]⟩

/-- A validly signed envelope carrying msgC5. -/
def envC5 : SignedEnvelope :=
  ⟨⟨[1]⟩, StateEnvelopePayloadType, encodeMsg msgC5,
    mkSig ⟨[1]⟩ StateEnvelopeDomain StateEnvelopePayloadType (encodeMsg msgC5)⟩

/-- Wire bytes of envC5. -/
def bC5 : Bytes := encodeEnv envC5

/-- The record parsed from bC5. -/
def rC5 : SignedRoutingState :=
  ((UnmarshalSignedRoutingState M bC5).1).getD emptyRecord

theorem marshal_retained_envelope_witness :
    UnmarshalSignedRoutingState M bC5 = (some rC5, none) ∧
    SignedRoutingState.Marshal M rC5 = .ok bC5 :=
  ⟨rfl,
    (marshal_retained_envelope M
      (fun b env h => M_open_marshal_exact b StateEnvelopeDomain env h)).2
      bC5 rC5 rfl⟩

/-- A shared envelope for the equality-sensitivity witness. -/
def envC6 : SignedEnvelope := ⟨⟨[1]⟩, [], [], []⟩

/-- Two records identical except for address order. -/
def sC6 : SignedRoutingState := ⟨⟨[0, 1]⟩, 1, [⟨[1]⟩, ⟨[2]⟩], envC6⟩

/-- The address-order permutation of sC6. -/
def tC6 : SignedRoutingState := ⟨⟨[0, 1]⟩, 1, [⟨[2]⟩, ⟨[1]⟩], envC6⟩

theorem equal_iff_spec_witness : sC6.Equal (some tC6) = false :=
  equal_iff_spec.2 sC6 tC6 rfl rfl rfl (List.Perm.swap _ _ _) (by decide)

/-- The record built by the model at clock reading 1. -/
def rC71 : SignedRoutingState :=
  ((MakeSignedRoutingState M 1 kA []).1).getD emptyRecord

/-- The record built by the model at clock reading 2. -/
def rC72 : SignedRoutingState :=
  ((MakeSignedRoutingState M 2 kA []).1).getD emptyRecord

theorem seqno_timestamp_monotone_witness :
    SignedRoutingState.Seq rC71 = ((1 : Int) % (2 : Int) ^ 64).toNat ∧
    SignedRoutingState.Seq rC72 = ((2 : Int) % (2 : Int) ^ 64).toNat ∧
    SignedRoutingState.Seq rC71 < SignedRoutingState.Seq rC72 :=
  seqno_timestamp_monotone M kA [] 1 2 rC71 rC72 (by norm_num) (by norm_num)
    (by norm_num) rfl rfl

/-- An envelope whose payload type is not the routing-state tag. -/
def envC8 : SignedEnvelope := ⟨⟨[]⟩, [], [], []⟩

theorem parse_error_no_record_witness :
    (SignedRoutingStateFromEnvelope M envC8).1 = none :=
  (parse_error_no_record M).1 envC8 SchemaMismatchError rfl

/-- The record built by the model over an address the parse path drops. -/
def rC10 : SignedRoutingState :=
  ((MakeSignedRoutingState M 4 kA [maEmpty]).1).getD emptyRecord

theorem make_keeps_addrs_witness :
    SignedRoutingState.Multiaddrs rC10 = [maEmpty] :=
  make_keeps_addrs M 4 kA [maEmpty] rC10 rfl

end LibP2P
